import Mathlib

set_option maxHeartbeats 1000000

/-- States of the circuit breaker, from class CircuitBreakerState in mezmo_api.py
(CLOSED, OPEN, HALF_OPEN).  `opened` stands for the source's OPEN. -/
inductive CircuitBreakerState where
  | closed
  | opened
  | halfOpen
deriving DecidableEq

/-- The mutable fields and configuration of class CircuitBreaker in mezmo_api.py.
Timestamps and the recovery timeout are wall-clock seconds, modelled as rationals. -/
structure CircuitBreaker where
  failure_threshold : Nat
  recovery_timeout : ℚ
  state : CircuitBreakerState
  failure_count : Nat
  last_failure_time : Option ℚ
deriving DecidableEq

/-- CircuitBreaker.can_proceed (mezmo_api.py lines 129-147), with the current wall
clock passed explicitly.  Returns the boolean together with the updated breaker.
The Python guard `if self.last_failure_time and ...` is truthiness: it is false
when last_failure_time is None or equal to 0.0, which the embedding mirrors. -/
def can_proceed (cb : CircuitBreaker) (now : ℚ) : Bool × CircuitBreaker :=
  match cb.state with
  | .closed => (true, cb)
  | .opened =>
    match cb.last_failure_time with
    | some t =>
      if t ≠ 0 ∧ now - t ≥ cb.recovery_timeout then
        (true, { cb with state := .halfOpen })
      else
        (false, cb)
    | none => (false, cb)
  | .halfOpen => (true, cb)

/-- CircuitBreaker.record_success (mezmo_api.py lines 149-155): unconditionally
reset the failure count and close the circuit. -/
def record_success (cb : CircuitBreaker) : CircuitBreaker :=
  { cb with failure_count := 0, state := .closed }

/-- CircuitBreaker.record_failure (mezmo_api.py lines 157-176): increment the
counter, stamp the failure time, then reopen from HALF_OPEN, or open from any
state once the incremented count reaches the threshold. -/
def record_failure (cb : CircuitBreaker) (now : ℚ) : CircuitBreaker :=
  if cb.state = CircuitBreakerState.halfOpen then
    { cb with failure_count := cb.failure_count + 1, last_failure_time := some now,
              state := .opened }
  else if cb.failure_count + 1 ≥ cb.failure_threshold then
    { cb with failure_count := cb.failure_count + 1, last_failure_time := some now,
              state := .opened }
  else
    { cb with failure_count := cb.failure_count + 1, last_failure_time := some now }

/-- A sequence of can_proceed calls at the given times, collecting the returned
booleans while threading the (possibly updated) breaker. -/
def can_proceed_run (cb : CircuitBreaker) : List ℚ → List Bool
  | [] => []
  | q :: qs => (can_proceed cb q).1 :: can_proceed_run (can_proceed cb q).2 qs

theorem record_failure_count (cb : CircuitBreaker) (t : ℚ) :
    (record_failure cb t).failure_count = cb.failure_count + 1 := by
  unfold record_failure
  split
  · rfl
  · split <;> rfl

theorem record_failure_lft (cb : CircuitBreaker) (t : ℚ) :
    (record_failure cb t).last_failure_time = some t := by
  unfold record_failure
  split
  · rfl
  · split <;> rfl

theorem record_failure_threshold (cb : CircuitBreaker) (t : ℚ) :
    (record_failure cb t).failure_threshold = cb.failure_threshold := by
  unfold record_failure
  split
  · rfl
  · split <;> rfl

theorem record_failure_recovery (cb : CircuitBreaker) (t : ℚ) :
    (record_failure cb t).recovery_timeout = cb.recovery_timeout := by
  unfold record_failure
  split
  · rfl
  · split <;> rfl

theorem record_failure_state_opened (cb : CircuitBreaker) (t : ℚ)
    (h : cb.failure_count + 1 ≥ cb.failure_threshold) :
    (record_failure cb t).state = CircuitBreakerState.opened := by
  by_cases hs : cb.state = CircuitBreakerState.halfOpen
  · unfold record_failure
    rw [if_pos hs]
  · unfold record_failure
    rw [if_neg hs, if_pos h]

theorem applyFailures_count (ts : List ℚ) : ∀ cb : CircuitBreaker,
    (List.foldl record_failure cb ts).failure_count = cb.failure_count + ts.length := by
  induction ts with
  | nil => intro cb; simp
  | cons t ts ih =>
    intro cb
    simp only [List.foldl_cons, ih, record_failure_count, List.length_cons]
    omega

theorem applyFailures_threshold (ts : List ℚ) : ∀ cb : CircuitBreaker,
    (List.foldl record_failure cb ts).failure_threshold = cb.failure_threshold := by
  induction ts with
  | nil => intro cb; rfl
  | cons t ts ih =>
    intro cb
    simp only [List.foldl_cons, ih, record_failure_threshold]

theorem applyFailures_recovery (ts : List ℚ) : ∀ cb : CircuitBreaker,
    (List.foldl record_failure cb ts).recovery_timeout = cb.recovery_timeout := by
  induction ts with
  | nil => intro cb; rfl
  | cons t ts ih =>
    intro cb
    simp only [List.foldl_cons, ih, record_failure_recovery]

theorem can_proceed_run_false (cb : CircuitBreaker) (tlast : ℚ)
    (hs : cb.state = CircuitBreakerState.opened)
    (hl : cb.last_failure_time = some tlast) :
    ∀ qs : List ℚ, (∀ q ∈ qs, q - tlast < cb.recovery_timeout) →
      ∀ b ∈ can_proceed_run cb qs, b = false := by
  intro qs
  induction qs with
  | nil => intro _ b hb; simp [can_proceed_run] at hb
  | cons q qs ih =>
    intro hq b hb
    have hc : ¬(tlast ≠ 0 ∧ q - tlast ≥ cb.recovery_timeout) := by
      rintro ⟨-, h2⟩
      exact absurd h2 (not_le.mpr (hq q (List.mem_cons_self q qs)))
    have hone : can_proceed cb q = (false, cb) := by
      unfold can_proceed
      rw [hs, hl]
      dsimp only
      rw [if_neg hc]
    simp only [can_proceed_run, hone] at hb
    rcases List.mem_cons.mp hb with h | h
    · exact h
    · exact ih (fun q' hm => hq q' (List.mem_cons_of_mem _ hm)) b h

/-- C1: starting from a Closed breaker with failure_count = 0, exactly
failure_threshold consecutive record_failure calls (here at times ts ++ [tlast],
with ts.length + 1 = failure_threshold) leave the breaker Open, and every
subsequent can_proceed call at a time less than recovery_timeout after the last
recorded failure returns false. -/
theorem closed_breaker_opens_after_threshold_failures
    (T : Nat) (rt : ℚ) (lft0 : Option ℚ) (ts : List ℚ) (tlast : ℚ)
    (hT : ts.length + 1 = T) (qs : List ℚ) (hq : ∀ q ∈ qs, q - tlast < rt) :
    (List.foldl record_failure ⟨T, rt, CircuitBreakerState.closed, 0, lft0⟩
        (ts ++ [tlast])).state = CircuitBreakerState.opened ∧
    ∀ b ∈ can_proceed_run
        (List.foldl record_failure ⟨T, rt, CircuitBreakerState.closed, 0, lft0⟩
          (ts ++ [tlast])) qs, b = false := by
  have hfold :
      List.foldl record_failure
          (⟨T, rt, CircuitBreakerState.closed, 0, lft0⟩ : CircuitBreaker) (ts ++ [tlast]) =
        record_failure
          (List.foldl record_failure ⟨T, rt, CircuitBreakerState.closed, 0, lft0⟩ ts) tlast := by
    simp [List.foldl_append]
  have hcount :
      (List.foldl record_failure
          (⟨T, rt, CircuitBreakerState.closed, 0, lft0⟩ : CircuitBreaker) ts).failure_count
        = ts.length := by
    simpa using applyFailures_count ts ⟨T, rt, CircuitBreakerState.closed, 0, lft0⟩
  have hthr :
      (List.foldl record_failure
          (⟨T, rt, CircuitBreakerState.closed, 0, lft0⟩ : CircuitBreaker) ts).failure_threshold
        = T :=
    applyFailures_threshold ts _
  have hrtmid :
      (List.foldl record_failure
          (⟨T, rt, CircuitBreakerState.closed, 0, lft0⟩ : CircuitBreaker) ts).recovery_timeout
        = rt :=
    applyFailures_recovery ts _
  have hstate :
      (List.foldl record_failure
          (⟨T, rt, CircuitBreakerState.closed, 0, lft0⟩ : CircuitBreaker)
          (ts ++ [tlast])).state = CircuitBreakerState.opened := by
    rw [hfold]
    apply record_failure_state_opened
    rw [hcount, hthr]
    omega
  have hlft :
      (List.foldl record_failure
          (⟨T, rt, CircuitBreakerState.closed, 0, lft0⟩ : CircuitBreaker)
          (ts ++ [tlast])).last_failure_time = some tlast := by
    rw [hfold]; exact record_failure_lft _ _
  have hrtfin :
      (List.foldl record_failure
          (⟨T, rt, CircuitBreakerState.closed, 0, lft0⟩ : CircuitBreaker)
          (ts ++ [tlast])).recovery_timeout = rt := by
    rw [hfold, record_failure_recovery]; exact hrtmid
  refine ⟨hstate, ?_⟩
  intro b hb
  exact can_proceed_run_false _ tlast hstate hlft qs
    (fun q hm => by rw [hrtfin]; exact hq q hm) b hb

theorem closed_breaker_opens_after_threshold_failures_witness :
    (List.foldl record_failure ⟨2, 60, CircuitBreakerState.closed, 0, none⟩
        (([10] : List ℚ) ++ [20])).state = CircuitBreakerState.opened ∧
    ∀ b ∈ can_proceed_run
        (List.foldl record_failure ⟨2, 60, CircuitBreakerState.closed, 0, none⟩
          (([10] : List ℚ) ++ [20])) [30, 50], b = false :=
  closed_breaker_opens_after_threshold_failures 2 60 none [10] 20 rfl [30, 50]
    (by norm_num [List.forall_mem_cons])

/-- C2: an Open breaker whose last failure is at a (positive wall-clock) time t,
queried once at least recovery_timeout seconds have elapsed, lets the call
through and moves to HalfOpen; a record_success then closes the breaker and
resets failure_count to 0. -/
theorem open_breaker_recovers_after_timeout
    (T : Nat) (rt : ℚ) (fc : Nat) (t now : ℚ) (ht : 0 < t)
    (he : now - t ≥ rt) :
    (can_proceed ⟨T, rt, CircuitBreakerState.opened, fc, some t⟩ now).1 = true ∧
    (can_proceed ⟨T, rt, CircuitBreakerState.opened, fc, some t⟩ now).2.state =
      CircuitBreakerState.halfOpen ∧
    (record_success
        (can_proceed ⟨T, rt, CircuitBreakerState.opened, fc, some t⟩ now).2).state =
      CircuitBreakerState.closed ∧
    (record_success
        (can_proceed ⟨T, rt, CircuitBreakerState.opened, fc, some t⟩ now).2).failure_count
      = 0 := by
  have hcond : t ≠ 0 ∧ now - t ≥
      (⟨T, rt, CircuitBreakerState.opened, fc, some t⟩ : CircuitBreaker).recovery_timeout :=
    ⟨ne_of_gt ht, he⟩
  have h1 : can_proceed ⟨T, rt, CircuitBreakerState.opened, fc, some t⟩ now =
      (true, ⟨T, rt, CircuitBreakerState.halfOpen, fc, some t⟩) := by
    unfold can_proceed
    dsimp only
    rw [if_pos hcond]
  rw [h1]
  exact ⟨rfl, rfl, rfl, rfl⟩

theorem open_breaker_recovers_after_timeout_witness :
    (can_proceed ⟨5, 60, CircuitBreakerState.opened, 5, some 100⟩ 160).1 = true ∧
    (can_proceed ⟨5, 60, CircuitBreakerState.opened, 5, some 100⟩ 160).2.state =
      CircuitBreakerState.halfOpen ∧
    (record_success
        (can_proceed ⟨5, 60, CircuitBreakerState.opened, 5, some 100⟩ 160).2).state =
      CircuitBreakerState.closed ∧
    (record_success
        (can_proceed ⟨5, 60, CircuitBreakerState.opened, 5, some 100⟩ 160).2).failure_count
      = 0 :=
  open_breaker_recovers_after_timeout 5 60 5 100 160 (by norm_num) (by norm_num)

/-- A parsed JSON body of a successful export response: the `lines` array
(records kept opaque) and the optional `pagination_id` field, as read by
`data.get("lines", [])` and `data.get("pagination_id")` in mezmo_api.py. -/
structure ResponseBody where
  lines : List Nat
  pagination_id : Option String
deriving DecidableEq

/-- The observable content of one HTTP exchange: status code, the value of the
Retry-After response header if any, the response text, and the result of
`response.json()` (`none` models the parse raising). -/
structure HttpResponse where
  status_code : Nat
  retry_after_header : Option String
  text : String
  json : Option ResponseBody
deriving DecidableEq

/-- What one `client.get` in the retry loop of fetch_latest_logs can come back
with: a response, or one of the caught exception classes
(httpx.TimeoutException, httpx.ConnectError, any other Exception). -/
inductive AttemptOutcome where
  | resp (r : HttpResponse)
  | timeout
  | connectError
  | otherError
deriving DecidableEq

/-- The fields of class MezmoAPIError in mezmo_api.py (lines 82-96). -/
structure MezmoAPIError where
  message : String
  status_code : Option Nat
  response_text : Option String
  retry_after : Option Int
deriving DecidableEq

/-- The dictionary returned by a successful fetch_latest_logs
(keys logs, pagination_id, has_more; mezmo_api.py lines 332-336). -/
structure FetchResult where
  logs : List Nat
  pagination_id : Option String
  has_more : Bool
deriving DecidableEq

/-- How fetch_latest_logs can fail: a ValueError from parameter validation, or
a MezmoAPIError from the circuit gate / HTTP handling. -/
inductive FetchErr where
  | valueError (msg : String)
  | apiError (e : MezmoAPIError)
deriving DecidableEq

/-- Observable actions of one fetch_latest_logs call, in order: the circuit
gate consultation, each network request issued, each asyncio.sleep, and each
circuit-breaker outcome update. -/
inductive Event where
  | canProceedCheck (result : Bool)
  | networkCall
  | sleep (seconds : ℚ)
  | recordSuccess
  | recordFailure
deriving DecidableEq

def isCanProceedCheck : Event → Bool
  | .canProceedCheck _ => true
  | _ => false

def isNetworkCall : Event → Bool
  | .networkCall => true
  | _ => false

def isSleep : Event → Bool
  | .sleep _ => true
  | _ => false

def isRecordSuccess : Event → Bool
  | .recordSuccess => true
  | _ => false

def isRecordFailure : Event → Bool
  | .recordFailure => true
  | _ => false

def isValueErrorRes : Except FetchErr FetchResult → Bool
  | .error (.valueError _) => true
  | _ => false

/-- Digit run of a Python integer literal, after the first digit (whose value
seeds the accumulator): further digits, with single underscores allowed
strictly between digits. -/
def pyIntDigits : List Char → Nat → Option Nat
  | [], acc => some acc
  | '_' :: c :: cs, acc =>
    if c.isDigit then pyIntDigits cs (acc * 10 + (c.toNat - 48)) else none
  | ['_'], _ => none
  | c :: cs, acc =>
    if c.isDigit then pyIntDigits cs (acc * 10 + (c.toNat - 48)) else none

/-- Python's whitespace class for str.strip(), restricted to ASCII. -/
def isPySpace (c : Char) : Bool :=
  c = ' ' ∨ c = '\t' ∨ c = '\n' ∨ c = '\r' ∨ c = '\x0b' ∨ c = '\x0c'

/-- str.strip(): drop whitespace from both ends. -/
def pyStrip (cs : List Char) : List Char :=
  ((cs.dropWhile isPySpace).reverse.dropWhile isPySpace).reverse

/-- Python `int(s)` on a string: strip surrounding whitespace, optional sign,
then a digit run; anything else raises ValueError, modelled as `none`. -/
def pyInt (s : String) : Option Int :=
  match pyStrip s.toList with
  | [] => none
  | '+' :: c :: cs =>
    if c.isDigit then (pyIntDigits cs (c.toNat - 48)).map Int.ofNat else none
  | ['+'] => none
  | '-' :: c :: cs =>
    if c.isDigit then (pyIntDigits cs (c.toNat - 48)).map (fun n => -(n : Int)) else none
  | ['-'] => none
  | c :: cs =>
    if c.isDigit then (pyIntDigits cs (c.toNat - 48)).map Int.ofNat else none

/-- The Retry-After extraction of the 429 branch (mezmo_api.py lines 368-374):
`response.headers.get("Retry-After")`, Python truthiness (absent or empty
header skips the parse), then `int(...)` with ValueError mapped to None. -/
def retryAfterVal (hdr : Option String) : Option Int :=
  match hdr with
  | some h => if h ≠ "" then pyInt h else none
  | none => none

/-- `response.text[:500] if response.text else "No response body"`
(mezmo_api.py lines 354-356). -/
def textExcerpt (t : String) : String :=
  if t ≠ "" then t.take 500 else "No response body"

/-- The message built for every non-200 status (mezmo_api.py line 353). -/
def statusErrMsg (status : Nat) (t : String) : String :=
  "Mezmo API returned status " ++ toString status ++ ": " ++ textExcerpt t

/-- The MezmoAPIError built for a non-200, non-429 status (server errors and
client errors alike carry status and body excerpt, retry_after unset). -/
def httpStatusErr (r : HttpResponse) : MezmoAPIError :=
  { message := statusErrMsg r.status_code r.text
    status_code := some r.status_code
    response_text := some (textExcerpt r.text)
    retry_after := none }

/-- The MezmoAPIError built in the 429 branch, carrying the parsed Retry-After
value (mezmo_api.py lines 376-381). -/
def rateLimitErr (r : HttpResponse) : MezmoAPIError :=
  { message := statusErrMsg r.status_code r.text
    status_code := some r.status_code
    response_text := some (textExcerpt r.text)
    retry_after := retryAfterVal r.retry_after_header }

/-- The MezmoAPIError raised when a 200 body fails to parse
(mezmo_api.py lines 345-349); note `response.text[:500]` without the
empty-body fallback in this branch. -/
def parseFailureErr (r : HttpResponse) : MezmoAPIError :=
  { message := "Failed to parse Mezmo API response"
    status_code := some r.status_code
    response_text := some (r.text.take 500)
    retry_after := none }

def timeoutErr : MezmoAPIError :=
  ⟨"Request to Mezmo API timed out", none, none, none⟩

def connectFailedErr : MezmoAPIError :=
  ⟨"Failed to connect to Mezmo API", none, none, none⟩

def unexpectedErr : MezmoAPIError :=
  ⟨"Unexpected error calling Mezmo API", none, none, none⟩

def exhaustedErr : MezmoAPIError :=
  ⟨"Failed to fetch logs from Mezmo after all retry attempts", none, none, none⟩

def circuitOpenErr : MezmoAPIError :=
  ⟨"Circuit breaker OPEN - Mezmo API unavailable", some 503, none, none⟩

/-- Result of one iteration of the retry loop body: `done` leaves the loop with
a final result (return or raise), `next` carries the freshly assigned
last_exception into the following iteration. -/
inductive StepRes where
  | done (events : List Event) (cb : CircuitBreaker) (result : Except FetchErr FetchResult)
  | next (events : List Event) (exc : MezmoAPIError)

def StepRes.events : StepRes → List Event
  | .done evs _ _ => evs
  | .next evs _ => evs

/-- The bottom-of-loop backoff (mezmo_api.py lines 452-463): sleep
`min(RETRY_DELAY * 2 ** attempt + jitter, MAX_RETRY_DELAY)` when there is a
next attempt and the just-recorded error is not a 429.  Every path reaching
this point has freshly assigned last_exception, so only the current error's
status matters. -/
def backoffTail (retry_delay : ℚ) (jGen : ℚ) (attempt : Nat) (notLast : Bool)
    (exc : MezmoAPIError) : StepRes :=
  if notLast ∧ exc.status_code ≠ some 429 then
    .next [Event.networkCall, Event.sleep (min (retry_delay * 2 ^ attempt + jGen) 30)] exc
  else
    .next [Event.networkCall] exc

/-- One iteration of the retry loop body of fetch_latest_logs
(mezmo_api.py lines 300-463): classify the outcome of the network call at
index `attempt`.  `notLast` is the source's `attempt < MAX_RETRIES - 1`;
jRA, j429 and jGen are the values drawn by random.uniform(0.5, 2.0),
random.uniform(1, 3) and random.uniform(0.1, 0.5) for this iteration. -/
def fetchStep (count : Int) (retry_delay : ℚ) (jRA j429 jGen : ℚ)
    (out : AttemptOutcome) (attempt : Nat) (notLast : Bool)
    (cb : CircuitBreaker) (now : ℚ) : StepRes :=
  match out with
  | .resp r =>
    if r.status_code = 200 then
      match r.json with
      | some data =>
        .done [Event.networkCall, Event.recordSuccess] (record_success cb)
          (Except.ok
            { logs := data.lines
              pagination_id := data.pagination_id
              has_more := decide ((data.lines.length : Int) = count) })
      | none =>
        .done [Event.networkCall, Event.recordFailure] (record_failure cb now)
          (Except.error (FetchErr.apiError (parseFailureErr r)))
    else if r.status_code = 429 then
      if notLast then
        .next [Event.networkCall,
            Event.sleep
              (match retryAfterVal r.retry_after_header with
               | some n => (n : ℚ) + jRA
               | none => min (retry_delay * 2 ^ attempt + j429) 30)]
          (rateLimitErr r)
      else
        backoffTail retry_delay jGen attempt notLast (rateLimitErr r)
    else if 400 ≤ r.status_code ∧ r.status_code < 500 then
      .done [Event.networkCall] cb (Except.error (FetchErr.apiError (httpStatusErr r)))
    else
      backoffTail retry_delay jGen attempt notLast (httpStatusErr r)
  | .timeout => backoffTail retry_delay jGen attempt notLast timeoutErr
  | .connectError => backoffTail retry_delay jGen attempt notLast connectFailedErr
  | .otherError => backoffTail retry_delay jGen attempt notLast unexpectedErr

/-- The retry loop of fetch_latest_logs (`for attempt in range(MAX_RETRIES)`,
mezmo_api.py lines 300-477), recursing on the number of remaining iterations;
`attempt` is the current index and the incoming last_exception is consumed only
when the budget is exhausted (lines 465-477, which also record the single
circuit-breaker failure). -/
def fetchLoop (count : Int) (retry_delay : ℚ) (jRA j429 jGen : Nat → ℚ)
    (outcomes : Nat → AttemptOutcome) (now : ℚ) :
    Nat → Nat → Option MezmoAPIError → CircuitBreaker →
      List Event × CircuitBreaker × Except FetchErr FetchResult
  | 0, _, lastExc, cb =>
    ([Event.recordFailure], record_failure cb now,
      Except.error (FetchErr.apiError (lastExc.getD exhaustedErr)))
  | rem + 1, attempt, _, cb =>
    match fetchStep count retry_delay (jRA attempt) (j429 attempt) (jGen attempt)
        (outcomes attempt) attempt (rem != 0) cb now with
    | .done evs cb2 res => (evs, cb2, res)
    | .next evs exc =>
      ((evs ++ (fetchLoop count retry_delay jRA j429 jGen outcomes now rem (attempt + 1)
          (some exc) cb).1),
        (fetchLoop count retry_delay jRA j429 jGen outcomes now rem (attempt + 1)
          (some exc) cb).2)

/-- The core of mezmo_api.fetch_latest_logs (lines 193-477): circuit gate
first (lines 232-244), then count and prefer validation (lines 246-250), then
the retry loop.  Request-shaping parameters (apps, hosts, levels, query,
timestamps, pagination_id) only populate the outbound query string and are not
modelled; `outcomes` gives what attempt i's network call comes back with. -/
def fetch_latest_logs (retry_delay : ℚ) (max_retries : Nat) (cb : CircuitBreaker)
    (now : ℚ) (count : Int) (prefer : Option String)
    (jRA j429 jGen : Nat → ℚ) (outcomes : Nat → AttemptOutcome) :
    List Event × CircuitBreaker × Except FetchErr FetchResult :=
  if (can_proceed cb now).1 = false then
    ([Event.canProceedCheck false], (can_proceed cb now).2,
      Except.error (FetchErr.apiError circuitOpenErr))
  else if count < 1 ∨ 10000 < count then
    ([Event.canProceedCheck true], (can_proceed cb now).2,
      Except.error (FetchErr.valueError
        ("Count must be between 1 and 10,000 per API spec, got " ++ toString count)))
  else if prefer ≠ some "head" ∧ prefer ≠ some "tail" then
    ([Event.canProceedCheck true], (can_proceed cb now).2,
      Except.error (FetchErr.valueError "Prefer must be head or tail"))
  else
    (Event.canProceedCheck true ::
        (fetchLoop count retry_delay jRA j429 jGen outcomes now max_retries 0 none
          (can_proceed cb now).2).1,
      (fetchLoop count retry_delay jRA j429 jGen outcomes now max_retries 0 none
        (can_proceed cb now).2).2)

theorem can_proceed_closed (cb : CircuitBreaker) (now : ℚ)
    (h : cb.state = CircuitBreakerState.closed) : can_proceed cb now = (true, cb) := by
  unfold can_proceed
  rw [h]

theorem backoffTail_sleep (rd jGen : ℚ) (attempt : Nat) (exc : MezmoAPIError)
    (h : exc.status_code ≠ some 429) :
    backoffTail rd jGen attempt true exc =
      .next [Event.networkCall, Event.sleep (min (rd * 2 ^ attempt + jGen) 30)] exc := by
  unfold backoffTail
  rw [if_pos ⟨rfl, h⟩]

theorem backoffTail_last (rd jGen : ℚ) (attempt : Nat) (exc : MezmoAPIError) :
    backoffTail rd jGen attempt false exc = .next [Event.networkCall] exc := by
  unfold backoffTail
  rw [if_neg]
  rintro ⟨h1, -⟩
  exact Bool.false_ne_true h1

/-- C3: a 429 received on a non-final attempt sleeps Retry-After plus the
uniform(0.5, 2.0) jitter when the header parses as an integer, and the capped
exponential backoff with the uniform(1, 3) jitter when it does not; the event
list is exactly one network call and that one sleep, so the generic
bottom-of-loop backoff is not applied in addition. -/
theorem rate_limited_attempt_delay_rule
    (count : Int) (rd : ℚ) (jRA j429 jGen : ℚ) (attempt : Nat)
    (r : HttpResponse) (h429 : r.status_code = 429)
    (cb : CircuitBreaker) (now : ℚ)
    (hjra1 : 1/2 ≤ jRA) (hjra2 : jRA ≤ 2) (hj1 : 1 ≤ j429) (hj2 : j429 ≤ 3) :
    (∀ n : Int, retryAfterVal r.retry_after_header = some n →
      fetchStep count rd jRA j429 jGen (.resp r) attempt true cb now =
        .next [Event.networkCall, Event.sleep ((n : ℚ) + jRA)] (rateLimitErr r)) ∧
    (retryAfterVal r.retry_after_header = none →
      fetchStep count rd jRA j429 jGen (.resp r) attempt true cb now =
        .next [Event.networkCall, Event.sleep (min (rd * 2 ^ attempt + j429) 30)]
          (rateLimitErr r)) := by
  have h200 : ¬(r.status_code = 200) := by omega
  constructor
  · intro n hn
    simp only [fetchStep]
    rw [if_neg h200, if_pos h429, if_pos trivial, hn]
  · intro hn
    simp only [fetchStep]
    rw [if_neg h200, if_pos h429, if_pos trivial, hn]

theorem rate_limited_attempt_delay_rule_witness :
    fetchStep 10 1 1 2 0 (.resp ⟨429, some "5", "slow down", none⟩) 0 true
        ⟨5, 60, CircuitBreakerState.closed, 0, none⟩ 0 =
      .next [Event.networkCall, Event.sleep (((5 : Int) : ℚ) + 1)]
        (rateLimitErr ⟨429, some "5", "slow down", none⟩) :=
  (rate_limited_attempt_delay_rule 10 1 1 2 0 0 ⟨429, some "5", "slow down", none⟩ rfl
      ⟨5, 60, CircuitBreakerState.closed, 0, none⟩ 0 (by norm_num) (by norm_num)
      (by norm_num) (by norm_num)).1 5 (by decide)

/-- C10: a 429 whose Retry-After header does not parse as an integer behaves
as if the header were absent: on a non-final attempt the capped exponential
backoff rule decides the sleep, and the recorded rate-limit error carries
retry_after = none. -/
theorem unparseable_retry_after_treated_absent
    (count : Int) (rd : ℚ) (jRA j429 jGen : ℚ) (attempt : Nat)
    (r : HttpResponse) (h429 : r.status_code = 429)
    (cb : CircuitBreaker) (now : ℚ)
    (s : String) (hs : r.retry_after_header = some s) (hbad : pyInt s = none) :
    fetchStep count rd jRA j429 jGen (.resp r) attempt true cb now =
      .next [Event.networkCall, Event.sleep (min (rd * 2 ^ attempt + j429) 30)]
        (rateLimitErr r) ∧
    (rateLimitErr r).retry_after = none := by
  have h200 : ¬(r.status_code = 200) := by omega
  have hval : retryAfterVal r.retry_after_header = none := by
    rw [hs]
    show (if s ≠ "" then pyInt s else none) = none
    by_cases he : s = ""
    · rw [if_neg (fun hc => hc he)]
    · rw [if_pos he, hbad]
  constructor
  · simp only [fetchStep]
    rw [if_neg h200, if_pos h429, if_pos trivial, hval]
  · unfold rateLimitErr
    exact hval

theorem unparseable_retry_after_treated_absent_witness :
    fetchStep 10 1 1 2 0
        (.resp ⟨429, some "Wed, 21 Oct 2015 07:28:00 GMT", "slow down", none⟩) 0 true
        ⟨5, 60, CircuitBreakerState.closed, 0, none⟩ 0 =
      .next [Event.networkCall, Event.sleep (min (1 * 2 ^ 0 + 2) 30)]
        (rateLimitErr ⟨429, some "Wed, 21 Oct 2015 07:28:00 GMT", "slow down", none⟩) ∧
    (rateLimitErr ⟨429, some "Wed, 21 Oct 2015 07:28:00 GMT", "slow down", none⟩).retry_after
      = none :=
  unparseable_retry_after_treated_absent 10 1 1 2 0 0
    ⟨429, some "Wed, 21 Oct 2015 07:28:00 GMT", "slow down", none⟩ rfl
    ⟨5, 60, CircuitBreakerState.closed, 0, none⟩ 0
    "Wed, 21 Oct 2015 07:28:00 GMT" rfl (by decide)

/-- Attempt outcomes after which the Python loop proceeds to a further
iteration (rather than returning or raising): exceptions, 429, and any other
status that is neither 200 nor a non-429 4xx. -/
def retryable : AttemptOutcome → Prop
  | .resp r => r.status_code ≠ 200 ∧
      (r.status_code = 429 ∨ ¬(400 ≤ r.status_code ∧ r.status_code < 500))
  | _ => True

theorem fetchStep_client_error (count : Int) (rd jRA j429 jGen : ℚ) (attempt : Nat)
    (notLast : Bool) (cb : CircuitBreaker) (now : ℚ) (r : HttpResponse)
    (h4 : 400 ≤ r.status_code) (h5 : r.status_code < 500) (h9 : r.status_code ≠ 429) :
    fetchStep count rd jRA j429 jGen (.resp r) attempt notLast cb now =
      .done [Event.networkCall] cb (Except.error (FetchErr.apiError (httpStatusErr r))) := by
  have h200 : ¬(r.status_code = 200) := by omega
  simp only [fetchStep]
  rw [if_neg h200, if_neg h9, if_pos ⟨h4, h5⟩]

theorem fetchStep_parse_failure (count : Int) (rd jRA j429 jGen : ℚ) (attempt : Nat)
    (notLast : Bool) (cb : CircuitBreaker) (now : ℚ) (r : HttpResponse)
    (h200 : r.status_code = 200) (hjson : r.json = none) :
    fetchStep count rd jRA j429 jGen (.resp r) attempt notLast cb now =
      .done [Event.networkCall, Event.recordFailure] (record_failure cb now)
        (Except.error (FetchErr.apiError (parseFailureErr r))) := by
  simp only [fetchStep]
  rw [if_pos h200, hjson]

theorem fetchStep_other_status (count : Int) (rd jRA j429 jGen : ℚ) (attempt : Nat)
    (notLast : Bool) (cb : CircuitBreaker) (now : ℚ) (r : HttpResponse)
    (h200 : r.status_code ≠ 200) (h429 : r.status_code ≠ 429)
    (h4xx : ¬(400 ≤ r.status_code ∧ r.status_code < 500)) :
    fetchStep count rd jRA j429 jGen (.resp r) attempt notLast cb now =
      backoffTail rd jGen attempt notLast (httpStatusErr r) := by
  simp only [fetchStep]
  rw [if_neg h200, if_neg h429, if_neg h4xx]

theorem backoffTail_next (rd jGen : ℚ) (attempt : Nat) (notLast : Bool)
    (exc : MezmoAPIError) :
    ∃ evs, backoffTail rd jGen attempt notLast exc = .next evs exc ∧
      List.countP isNetworkCall evs = 1 ∧ List.countP isRecordFailure evs = 0 ∧
      List.countP isRecordSuccess evs = 0 ∧ List.countP isCanProceedCheck evs = 0 := by
  unfold backoffTail
  split
  · refine ⟨_, rfl, ?_, ?_, ?_, ?_⟩ <;>
      simp [List.countP_cons, isNetworkCall, isRecordFailure, isRecordSuccess,
        isCanProceedCheck]
  · refine ⟨_, rfl, ?_, ?_, ?_, ?_⟩ <;>
      simp [List.countP_cons, isNetworkCall, isRecordFailure, isRecordSuccess,
        isCanProceedCheck]

theorem fetchStep_retryable_next (count : Int) (rd jRA j429 jGen : ℚ)
    (out : AttemptOutcome) (attempt : Nat) (notLast : Bool)
    (cb : CircuitBreaker) (now : ℚ) (h : retryable out) :
    ∃ evs exc, fetchStep count rd jRA j429 jGen out attempt notLast cb now = .next evs exc ∧
      List.countP isNetworkCall evs = 1 ∧ List.countP isRecordFailure evs = 0 ∧
      List.countP isRecordSuccess evs = 0 ∧ List.countP isCanProceedCheck evs = 0 := by
  cases out with
  | resp r =>
    obtain ⟨h200, hor⟩ := h
    by_cases h429 : r.status_code = 429
    · simp only [fetchStep]
      rw [if_neg h200, if_pos h429]
      cases notLast with
      | false =>
        rw [if_neg (fun hc : (false : Bool) = true => by cases hc)]
        obtain ⟨evs, heq, hp⟩ := backoffTail_next rd jGen attempt false (rateLimitErr r)
        exact ⟨evs, rateLimitErr r, heq, hp⟩
      | true =>
        rw [if_pos rfl]
        refine ⟨_, rateLimitErr r, rfl, ?_, ?_, ?_, ?_⟩ <;>
          simp [List.countP_cons, isNetworkCall, isRecordFailure, isRecordSuccess,
            isCanProceedCheck]
    · have h4xx : ¬(400 ≤ r.status_code ∧ r.status_code < 500) := by
        rcases hor with h | h
        · exact absurd h h429
        · exact h
      rw [fetchStep_other_status count rd jRA j429 jGen attempt notLast cb now r h200 h429 h4xx]
      obtain ⟨evs, heq, hp⟩ := backoffTail_next rd jGen attempt notLast (httpStatusErr r)
      exact ⟨evs, httpStatusErr r, heq, hp⟩
  | timeout =>
    obtain ⟨evs, heq, hp⟩ := backoffTail_next rd jGen attempt notLast timeoutErr
    exact ⟨evs, timeoutErr, heq, hp⟩
  | connectError =>
    obtain ⟨evs, heq, hp⟩ := backoffTail_next rd jGen attempt notLast connectFailedErr
    exact ⟨evs, connectFailedErr, heq, hp⟩
  | otherError =>
    obtain ⟨evs, heq, hp⟩ := backoffTail_next rd jGen attempt notLast unexpectedErr
    exact ⟨evs, unexpectedErr, heq, hp⟩

theorem fetchLoop_succ (count : Int) (rd : ℚ) (jRA j429 jGen : Nat → ℚ)
    (outcomes : Nat → AttemptOutcome) (now : ℚ) (rem attempt : Nat)
    (le : Option MezmoAPIError) (cb : CircuitBreaker) :
    fetchLoop count rd jRA j429 jGen outcomes now (rem + 1) attempt le cb =
      match fetchStep count rd (jRA attempt) (j429 attempt) (jGen attempt)
          (outcomes attempt) attempt (rem != 0) cb now with
      | .done evs cb2 res => (evs, cb2, res)
      | .next evs exc =>
        ((evs ++ (fetchLoop count rd jRA j429 jGen outcomes now rem (attempt + 1)
            (some exc) cb).1),
          (fetchLoop count rd jRA j429 jGen outcomes now rem (attempt + 1)
            (some exc) cb).2) := by
  rfl

theorem fetchLoop_skip (count : Int) (rd : ℚ) (jRA j429 jGen : Nat → ℚ)
    (outcomes : Nat → AttemptOutcome) (now : ℚ) :
    ∀ (i rem a : Nat) (le : Option MezmoAPIError) (cb : CircuitBreaker),
    i < rem →
    (∀ j, j < i → retryable (outcomes (a + j))) →
    ∃ evs1 le2,
      fetchLoop count rd jRA j429 jGen outcomes now rem a le cb =
        (evs1 ++ (fetchLoop count rd jRA j429 jGen outcomes now (rem - i) (a + i) le2 cb).1,
          (fetchLoop count rd jRA j429 jGen outcomes now (rem - i) (a + i) le2 cb).2) ∧
      List.countP isNetworkCall evs1 = i ∧
      List.countP isRecordFailure evs1 = 0 ∧
      List.countP isRecordSuccess evs1 = 0 ∧
      List.countP isCanProceedCheck evs1 = 0 := by
  intro i
  induction i with
  | zero =>
    intro rem a le cb hlt hj
    exact ⟨[], le, by simp, rfl, rfl, rfl, rfl⟩
  | succ k ih =>
    intro rem a le cb hlt hj
    obtain ⟨rem', rfl⟩ : ∃ rem', rem = rem' + 1 := ⟨rem - 1, by omega⟩
    have hr0 : retryable (outcomes a) := by
      have h0 := hj 0 (Nat.succ_pos k)
      simpa using h0
    obtain ⟨evs0, exc0, hstep, hn0, hf0, hs0, hc0⟩ :=
      fetchStep_retryable_next count rd (jRA a) (j429 a) (jGen a) (outcomes a) a
        (rem' != 0) cb now hr0
    have hloop := fetchLoop_succ count rd jRA j429 jGen outcomes now rem' a le cb
    rw [hstep] at hloop
    dsimp only at hloop
    have hk : k < rem' := by omega
    have hj' : ∀ j, j < k → retryable (outcomes (a + 1 + j)) := by
      intro j hjk
      have hx := hj (j + 1) (by omega)
      have hy : a + (j + 1) = a + 1 + j := by omega
      rwa [hy] at hx
    obtain ⟨evs1, le2, heq, hn1, hf1, hs1, hc1⟩ := ih rem' (a + 1) (some exc0) cb hk hj'
    refine ⟨evs0 ++ evs1, le2, ?_, ?_, ?_, ?_, ?_⟩
    · rw [hloop, heq]
      have h1 : rem' - k = rem' + 1 - (k + 1) := by omega
      have h2 : a + 1 + k = a + (k + 1) := by omega
      rw [h1, h2, List.append_assoc]
    · rw [List.countP_append, hn0, hn1]
      omega
    · rw [List.countP_append, hf0, hf1]
    · rw [List.countP_append, hs0, hs1]
    · rw [List.countP_append, hc0, hc1]

theorem getLast?_append_some {α : Type} (l1 l2 : List α) (x : α)
    (h : l2.getLast? = some x) : (l1 ++ l2).getLast? = some x := by
  rw [List.getLast?_append, h]
  rfl

theorem fetch_latest_logs_valid (rd : ℚ) (maxR : Nat) (cb : CircuitBreaker) (now : ℚ)
    (count : Int) (hc1 : 1 ≤ count) (hc2 : count ≤ 10000)
    (jRA j429 jGen : Nat → ℚ) (outcomes : Nat → AttemptOutcome)
    (hcb : cb.state = CircuitBreakerState.closed) :
    fetch_latest_logs rd maxR cb now count (some "tail") jRA j429 jGen outcomes =
      (Event.canProceedCheck true ::
          (fetchLoop count rd jRA j429 jGen outcomes now maxR 0 none cb).1,
        (fetchLoop count rd jRA j429 jGen outcomes now maxR 0 none cb).2) := by
  unfold fetch_latest_logs
  rw [can_proceed_closed cb now hcb]
  rw [if_neg (by simp), if_neg (by omega), if_neg (by simp)]

/-- C7: once an attempt of a fetch receives a 4xx status other than 429 (after
any earlier attempts that continue the loop), the fetch fails at that very
attempt with the client error carrying that status and the body excerpt: the
trace records exactly i+1 network calls, and ends on that network call, so no
retry sleep and no further attempt follows. -/
theorem client_error_fails_immediately
    (rd : ℚ) (maxR : Nat) (cb : CircuitBreaker) (now : ℚ)
    (hcb : cb.state = CircuitBreakerState.closed)
    (count : Int) (hc1 : 1 ≤ count) (hc2 : count ≤ 10000)
    (jRA j429 jGen : Nat → ℚ) (outcomes : Nat → AttemptOutcome)
    (i : Nat) (hi : i < maxR) (hprev : ∀ j, j < i → retryable (outcomes j))
    (r : HttpResponse) (hout : outcomes i = .resp r)
    (h4 : 400 ≤ r.status_code) (h5 : r.status_code < 500) (h9 : r.status_code ≠ 429)
    (evs : List Event) (cbf : CircuitBreaker) (res : Except FetchErr FetchResult)
    (hrun : fetch_latest_logs rd maxR cb now count (some "tail") jRA j429 jGen outcomes =
      (evs, cbf, res)) :
    res = Except.error (FetchErr.apiError (httpStatusErr r)) ∧
    (httpStatusErr r).status_code = some r.status_code ∧
    (httpStatusErr r).response_text = some (textExcerpt r.text) ∧
    List.countP isNetworkCall evs = i + 1 ∧
    evs.getLast? = some Event.networkCall := by
  rw [fetch_latest_logs_valid rd maxR cb now count hc1 hc2 jRA j429 jGen outcomes hcb] at hrun
  obtain ⟨evs1, le2, heq, hn1, hf1, hs1, hcp1⟩ :=
    fetchLoop_skip count rd jRA j429 jGen outcomes now i maxR 0 none cb hi
      (fun j hj => by rw [Nat.zero_add]; exact hprev j hj)
  rw [Nat.zero_add] at heq
  obtain ⟨m, hm⟩ : ∃ m, maxR - i = m + 1 := ⟨maxR - i - 1, by omega⟩
  rw [hm] at heq
  have hM : fetchLoop count rd jRA j429 jGen outcomes now (m + 1) i le2 cb =
      ([Event.networkCall], cb,
        Except.error (FetchErr.apiError (httpStatusErr r))) := by
    rw [fetchLoop_succ, hout,
      fetchStep_client_error count rd (jRA i) (j429 i) (jGen i) i (m != 0) cb now r h4 h5 h9]
  rw [hM] at heq
  dsimp only at heq
  rw [heq] at hrun
  dsimp only at hrun
  simp only [Prod.mk.injEq] at hrun
  obtain ⟨hA, hB, hC⟩ := hrun
  refine ⟨hC.symm, rfl, rfl, ?_, ?_⟩
  · rw [← hA]
    simp only [List.countP_cons, List.countP_append, hn1]
    simp [isNetworkCall]
  · rw [← hA, ← List.cons_append]
    exact getLast?_append_some _ [Event.networkCall] Event.networkCall rfl

theorem client_error_fails_immediately_witness :
    (fetch_latest_logs 1 3 ⟨5, 60, CircuitBreakerState.closed, 0, none⟩ 0 10 (some "tail")
        (fun _ => 1) (fun _ => 1) (fun _ => 1)
        (fun _ => .resp ⟨404, none, "not found", none⟩)).2.2 =
      Except.error (FetchErr.apiError (httpStatusErr ⟨404, none, "not found", none⟩)) ∧
    (httpStatusErr ⟨404, none, "not found", none⟩).status_code = some 404 ∧
    (httpStatusErr ⟨404, none, "not found", none⟩).response_text =
      some (textExcerpt "not found") ∧
    List.countP isNetworkCall
      (fetch_latest_logs 1 3 ⟨5, 60, CircuitBreakerState.closed, 0, none⟩ 0 10 (some "tail")
        (fun _ => 1) (fun _ => 1) (fun _ => 1)
        (fun _ => .resp ⟨404, none, "not found", none⟩)).1 = 0 + 1 ∧
    (fetch_latest_logs 1 3 ⟨5, 60, CircuitBreakerState.closed, 0, none⟩ 0 10 (some "tail")
        (fun _ => 1) (fun _ => 1) (fun _ => 1)
        (fun _ => .resp ⟨404, none, "not found", none⟩)).1.getLast? =
      some Event.networkCall :=
  client_error_fails_immediately 1 3 ⟨5, 60, CircuitBreakerState.closed, 0, none⟩ 0 rfl
    10 (by norm_num) (by norm_num) (fun _ => 1) (fun _ => 1) (fun _ => 1)
    (fun _ => .resp ⟨404, none, "not found", none⟩)
    0 (by norm_num) (fun j hj => absurd hj (Nat.not_lt_zero j))
    ⟨404, none, "not found", none⟩ rfl (by norm_num) (by norm_num) (by norm_num)
    _ _ _ rfl

/-- C8: once an attempt of a fetch receives a 200 whose body fails to parse
(after any earlier attempts that continue the loop), the fetch records a
circuit-breaker failure immediately and terminates: the trace has exactly one
recordFailure, ends on it (so it is not repeated at loop exhaustion), records
exactly i+1 network calls, and the fetch fails with the parse-failure
(MalformedResponse) error. -/
theorem unparseable_200_records_failure_once
    (rd : ℚ) (maxR : Nat) (cb : CircuitBreaker) (now : ℚ)
    (hcb : cb.state = CircuitBreakerState.closed)
    (count : Int) (hc1 : 1 ≤ count) (hc2 : count ≤ 10000)
    (jRA j429 jGen : Nat → ℚ) (outcomes : Nat → AttemptOutcome)
    (i : Nat) (hi : i < maxR) (hprev : ∀ j, j < i → retryable (outcomes j))
    (r : HttpResponse) (hout : outcomes i = .resp r)
    (h200 : r.status_code = 200) (hjson : r.json = none)
    (evs : List Event) (cbf : CircuitBreaker) (res : Except FetchErr FetchResult)
    (hrun : fetch_latest_logs rd maxR cb now count (some "tail") jRA j429 jGen outcomes =
      (evs, cbf, res)) :
    res = Except.error (FetchErr.apiError (parseFailureErr r)) ∧
    List.countP isNetworkCall evs = i + 1 ∧
    List.countP isRecordFailure evs = 1 ∧
    evs.getLast? = some Event.recordFailure := by
  rw [fetch_latest_logs_valid rd maxR cb now count hc1 hc2 jRA j429 jGen outcomes hcb] at hrun
  obtain ⟨evs1, le2, heq, hn1, hf1, hs1, hcp1⟩ :=
    fetchLoop_skip count rd jRA j429 jGen outcomes now i maxR 0 none cb hi
      (fun j hj => by rw [Nat.zero_add]; exact hprev j hj)
  rw [Nat.zero_add] at heq
  obtain ⟨m, hm⟩ : ∃ m, maxR - i = m + 1 := ⟨maxR - i - 1, by omega⟩
  rw [hm] at heq
  have hM : fetchLoop count rd jRA j429 jGen outcomes now (m + 1) i le2 cb =
      ([Event.networkCall, Event.recordFailure], record_failure cb now,
        Except.error (FetchErr.apiError (parseFailureErr r))) := by
    rw [fetchLoop_succ, hout,
      fetchStep_parse_failure count rd (jRA i) (j429 i) (jGen i) i (m != 0) cb now r
        h200 hjson]
  rw [hM] at heq
  dsimp only at heq
  rw [heq] at hrun
  dsimp only at hrun
  simp only [Prod.mk.injEq] at hrun
  obtain ⟨hA, hB, hC⟩ := hrun
  refine ⟨hC.symm, ?_, ?_, ?_⟩
  · rw [← hA]
    simp only [List.countP_cons, List.countP_append, hn1]
    simp [isNetworkCall]
  · rw [← hA]
    simp only [List.countP_cons, List.countP_append, hf1]
    simp [isRecordFailure]
  · rw [← hA, ← List.cons_append]
    exact getLast?_append_some _ [Event.networkCall, Event.recordFailure]
      Event.recordFailure rfl

theorem unparseable_200_records_failure_once_witness :
    (fetch_latest_logs 1 3 ⟨5, 60, CircuitBreakerState.closed, 0, none⟩ 0 10 (some "tail")
        (fun _ => 1) (fun _ => 1) (fun _ => 1)
        (fun _ => .resp ⟨200, none, "bad body", none⟩)).2.2 =
      Except.error (FetchErr.apiError (parseFailureErr ⟨200, none, "bad body", none⟩)) ∧
    List.countP isNetworkCall
      (fetch_latest_logs 1 3 ⟨5, 60, CircuitBreakerState.closed, 0, none⟩ 0 10 (some "tail")
        (fun _ => 1) (fun _ => 1) (fun _ => 1)
        (fun _ => .resp ⟨200, none, "bad body", none⟩)).1 = 0 + 1 ∧
    List.countP isRecordFailure
      (fetch_latest_logs 1 3 ⟨5, 60, CircuitBreakerState.closed, 0, none⟩ 0 10 (some "tail")
        (fun _ => 1) (fun _ => 1) (fun _ => 1)
        (fun _ => .resp ⟨200, none, "bad body", none⟩)).1 = 1 ∧
    (fetch_latest_logs 1 3 ⟨5, 60, CircuitBreakerState.closed, 0, none⟩ 0 10 (some "tail")
        (fun _ => 1) (fun _ => 1) (fun _ => 1)
        (fun _ => .resp ⟨200, none, "bad body", none⟩)).1.getLast? =
      some Event.recordFailure :=
  unparseable_200_records_failure_once 1 3 ⟨5, 60, CircuitBreakerState.closed, 0, none⟩ 0 rfl
    10 (by norm_num) (by norm_num) (fun _ => 1) (fun _ => 1) (fun _ => 1)
    (fun _ => .resp ⟨200, none, "bad body", none⟩)
    0 (by norm_num) (fun j hj => absurd hj (Nat.not_lt_zero j))
    ⟨200, none, "bad body", none⟩ rfl rfl rfl
    _ _ _ rfl

theorem fetchLoop_all_503 (count : Int) (rd : ℚ) (jRA j429 jGen : Nat → ℚ)
    (outcomes : Nat → AttemptOutcome) (now : ℚ) :
    ∀ (rem a : Nat) (le : Option MezmoAPIError) (cb : CircuitBreaker),
    rem ≠ 0 →
    (∀ i, i < rem → ∃ r : HttpResponse, outcomes (a + i) = .resp r ∧ r.status_code = 503) →
    ∃ evs e,
      fetchLoop count rd jRA j429 jGen outcomes now rem a le cb =
        (evs, record_failure cb now, Except.error (FetchErr.apiError e)) ∧
      e.status_code = some 503 ∧
      List.countP isNetworkCall evs = rem ∧
      List.countP isRecordFailure evs = 1 ∧
      evs.getLast? = some Event.recordFailure := by
  intro rem
  induction rem with
  | zero => intro a le cb h; exact absurd rfl h
  | succ k ih =>
    intro a le cb _ hall
    obtain ⟨r, hr, hs⟩ := hall 0 (Nat.succ_pos k)
    rw [Nat.add_zero] at hr
    have hstep : fetchStep count rd (jRA a) (j429 a) (jGen a) (outcomes a) a (k != 0) cb now =
        backoffTail rd (jGen a) a (k != 0) (httpStatusErr r) := by
      rw [hr]
      exact fetchStep_other_status count rd (jRA a) (j429 a) (jGen a) a (k != 0) cb now r
        (by omega) (by omega) (by omega)
    have hst : (httpStatusErr r).status_code = some 503 := by
      unfold httpStatusErr
      rw [hs]
    cases k with
    | zero =>
      have hbt : backoffTail rd (jGen a) a (0 != 0) (httpStatusErr r) =
          .next [Event.networkCall] (httpStatusErr r) :=
        backoffTail_last rd (jGen a) a _
      have hloop := fetchLoop_succ count rd jRA j429 jGen outcomes now 0 a le cb
      rw [hstep, hbt] at hloop
      dsimp only at hloop
      refine ⟨[Event.networkCall, Event.recordFailure], httpStatusErr r, ?_, hst, ?_, ?_, ?_⟩
      · rw [hloop]
        rfl
      · simp [List.countP_cons, isNetworkCall]
      · simp [List.countP_cons, isRecordFailure]
      · rfl
    | succ k' =>
      have hne : (httpStatusErr r).status_code ≠ some 429 := by
        rw [hst]
        intro hcon
        cases hcon
      have htrue : (k' + 1 != 0) = true := rfl
      have hbt : backoffTail rd (jGen a) a (k' + 1 != 0) (httpStatusErr r) =
          .next [Event.networkCall, Event.sleep (min (rd * 2 ^ a + jGen a) 30)]
            (httpStatusErr r) := by
        rw [htrue]
        exact backoffTail_sleep rd (jGen a) a (httpStatusErr r) hne
      have hloop := fetchLoop_succ count rd jRA j429 jGen outcomes now (k' + 1) a le cb
      rw [hstep, hbt] at hloop
      dsimp only at hloop
      have hall' : ∀ i, i < k' + 1 →
          ∃ r2 : HttpResponse, outcomes (a + 1 + i) = .resp r2 ∧ r2.status_code = 503 := by
        intro i hi
        obtain ⟨r2, h1, h2⟩ := hall (i + 1) (by omega)
        refine ⟨r2, ?_, h2⟩
        rw [show a + 1 + i = a + (i + 1) from by omega]
        exact h1
      obtain ⟨evs2, e2, heq2, hst2, hn2, hf2, hl2⟩ :=
        ih (a + 1) (some (httpStatusErr r)) cb (by omega) hall'
      refine ⟨[Event.networkCall, Event.sleep (min (rd * 2 ^ a + jGen a) 30)] ++ evs2, e2,
        ?_, hst2, ?_, ?_, ?_⟩
      · rw [hloop, heq2]
      · rw [List.countP_append, hn2]
        simp [List.countP_cons, isNetworkCall]
        omega
      · rw [List.countP_append, hf2]
        simp [List.countP_cons, isRecordFailure]
      · exact getLast?_append_some _ evs2 Event.recordFailure hl2

/-- C4: a fetch (valid parameters, breaker closed) whose every attempt comes
back with HTTP 503 fails with the server error carrying status 503, issues
exactly MAX_RETRIES network calls, and records exactly one circuit-breaker
failure, as the final event after the last attempt. -/
theorem all_attempts_503_server_error
    (rd : ℚ) (maxR : Nat) (hmax : maxR ≠ 0) (cb : CircuitBreaker) (now : ℚ)
    (hcb : cb.state = CircuitBreakerState.closed)
    (count : Int) (hc1 : 1 ≤ count) (hc2 : count ≤ 10000)
    (jRA j429 jGen : Nat → ℚ) (outcomes : Nat → AttemptOutcome)
    (hall : ∀ i, i < maxR → ∃ r : HttpResponse, outcomes i = .resp r ∧ r.status_code = 503)
    (evs : List Event) (cbf : CircuitBreaker) (res : Except FetchErr FetchResult)
    (hrun : fetch_latest_logs rd maxR cb now count (some "tail") jRA j429 jGen outcomes =
      (evs, cbf, res)) :
    ∃ e, res = Except.error (FetchErr.apiError e) ∧ e.status_code = some 503 ∧
      List.countP isNetworkCall evs = maxR ∧
      List.countP isRecordFailure evs = 1 ∧
      evs.getLast? = some Event.recordFailure := by
  rw [fetch_latest_logs_valid rd maxR cb now count hc1 hc2 jRA j429 jGen outcomes hcb] at hrun
  obtain ⟨evs2, e, heq, hst, hn, hf, hl⟩ :=
    fetchLoop_all_503 count rd jRA j429 jGen outcomes now maxR 0 none cb hmax
      (fun i hi => by rw [Nat.zero_add]; exact hall i hi)
  rw [heq] at hrun
  dsimp only at hrun
  simp only [Prod.mk.injEq] at hrun
  obtain ⟨hA, hB, hC⟩ := hrun
  refine ⟨e, hC.symm, hst, ?_, ?_, ?_⟩
  · rw [← hA]
    simp only [List.countP_cons]
    rw [hn]
    simp [isNetworkCall]
  · rw [← hA]
    simp only [List.countP_cons]
    rw [hf]
    simp [isRecordFailure]
  · rw [← hA]
    exact getLast?_append_some [Event.canProceedCheck true] evs2 Event.recordFailure hl

theorem all_attempts_503_server_error_witness :
    ∃ e, (fetch_latest_logs 1 3 ⟨5, 60, CircuitBreakerState.closed, 0, none⟩ 0 10 (some "tail")
        (fun _ => 1) (fun _ => 1) (fun _ => 1)
        (fun _ => .resp ⟨503, none, "unavailable", none⟩)).2.2 =
      Except.error (FetchErr.apiError e) ∧ e.status_code = some 503 ∧
      List.countP isNetworkCall
        (fetch_latest_logs 1 3 ⟨5, 60, CircuitBreakerState.closed, 0, none⟩ 0 10 (some "tail")
          (fun _ => 1) (fun _ => 1) (fun _ => 1)
          (fun _ => .resp ⟨503, none, "unavailable", none⟩)).1 = 3 ∧
      List.countP isRecordFailure
        (fetch_latest_logs 1 3 ⟨5, 60, CircuitBreakerState.closed, 0, none⟩ 0 10 (some "tail")
          (fun _ => 1) (fun _ => 1) (fun _ => 1)
          (fun _ => .resp ⟨503, none, "unavailable", none⟩)).1 = 1 ∧
      (fetch_latest_logs 1 3 ⟨5, 60, CircuitBreakerState.closed, 0, none⟩ 0 10 (some "tail")
          (fun _ => 1) (fun _ => 1) (fun _ => 1)
          (fun _ => .resp ⟨503, none, "unavailable", none⟩)).1.getLast? =
        some Event.recordFailure :=
  all_attempts_503_server_error 1 3 (by norm_num)
    ⟨5, 60, CircuitBreakerState.closed, 0, none⟩ 0 rfl
    10 (by norm_num) (by norm_num) (fun _ => 1) (fun _ => 1) (fun _ => 1)
    (fun _ => .resp ⟨503, none, "unavailable", none⟩)
    (fun i hi => ⟨⟨503, none, "unavailable", none⟩, rfl, rfl⟩)
    _ _ _ rfl

theorem fetchStep_events_no_cpc (count : Int) (rd jRA j429 jGen : ℚ) (out : AttemptOutcome)
    (attempt : Nat) (notLast : Bool) (cb : CircuitBreaker) (now : ℚ) :
    List.countP isCanProceedCheck
      (fetchStep count rd jRA j429 jGen out attempt notLast cb now).events = 0 := by
  have hbt : ∀ exc : MezmoAPIError, List.countP isCanProceedCheck
      (backoffTail rd jGen attempt notLast exc).events = 0 := by
    intro exc
    unfold backoffTail
    split <;> simp [StepRes.events, List.countP_cons, isCanProceedCheck]
  cases out with
  | resp r =>
    simp only [fetchStep]
    by_cases h200 : r.status_code = 200
    · rw [if_pos h200]
      cases hj : r.json <;> simp [StepRes.events, List.countP_cons, isCanProceedCheck]
    · rw [if_neg h200]
      by_cases h429 : r.status_code = 429
      · rw [if_pos h429]
        cases notLast with
        | false =>
          rw [if_neg (fun hc : (false : Bool) = true => by cases hc)]
          exact hbt _
        | true =>
          rw [if_pos rfl]
          simp [StepRes.events, List.countP_cons, isCanProceedCheck]
      · rw [if_neg h429]
        by_cases h4 : 400 ≤ r.status_code ∧ r.status_code < 500
        · rw [if_pos h4]
          simp [StepRes.events, List.countP_cons, isCanProceedCheck]
        · rw [if_neg h4]
          exact hbt _
  | timeout => exact hbt _
  | connectError => exact hbt _
  | otherError => exact hbt _

theorem fetchLoop_no_cpc (count : Int) (rd : ℚ) (jRA j429 jGen : Nat → ℚ)
    (outcomes : Nat → AttemptOutcome) (now : ℚ) :
    ∀ (rem a : Nat) (le : Option MezmoAPIError) (cb : CircuitBreaker),
    List.countP isCanProceedCheck
      (fetchLoop count rd jRA j429 jGen outcomes now rem a le cb).1 = 0 := by
  intro rem
  induction rem with
  | zero => intro a le cb; rfl
  | succ k ih =>
    intro a le cb
    have hstep := fetchStep_events_no_cpc count rd (jRA a) (j429 a) (jGen a)
      (outcomes a) a (k != 0) cb now
    rw [fetchLoop_succ]
    cases hs : fetchStep count rd (jRA a) (j429 a) (jGen a) (outcomes a) a (k != 0) cb now with
    | done evs0 cbx res0 =>
      rw [hs] at hstep
      dsimp only [StepRes.events] at hstep
      dsimp only
      exact hstep
    | next evs0 exc =>
      rw [hs] at hstep
      dsimp only [StepRes.events] at hstep
      dsimp only
      rw [List.countP_append, hstep, ih]

/-- C5 counterexample: in a run where the breaker is closed and every attempt
returns 503 with MAX_RETRIES = 3, the fetch issues three network calls but
consults can_proceed only once, so can_proceed is not consulted before every
attempt of the retry loop. -/
theorem single_gate_check_counterexample :
    List.countP isCanProceedCheck
        (fetch_latest_logs 1 3 ⟨5, 60, CircuitBreakerState.closed, 0, none⟩ 0 10 (some "tail")
          (fun _ => 1) (fun _ => 1) (fun _ => 1)
          (fun _ => .resp ⟨503, none, "unavailable", none⟩)).1 = 1 ∧
    List.countP isNetworkCall
        (fetch_latest_logs 1 3 ⟨5, 60, CircuitBreakerState.closed, 0, none⟩ 0 10 (some "tail")
          (fun _ => 1) (fun _ => 1) (fun _ => 1)
          (fun _ => .resp ⟨503, none, "unavailable", none⟩)).1 = 3 ∧
    List.countP isCanProceedCheck
        (fetch_latest_logs 1 3 ⟨5, 60, CircuitBreakerState.closed, 0, none⟩ 0 10 (some "tail")
          (fun _ => 1) (fun _ => 1) (fun _ => 1)
          (fun _ => .resp ⟨503, none, "unavailable", none⟩)).1 <
      List.countP isNetworkCall
        (fetch_latest_logs 1 3 ⟨5, 60, CircuitBreakerState.closed, 0, none⟩ 0 10 (some "tail")
          (fun _ => 1) (fun _ => 1) (fun _ => 1)
          (fun _ => .resp ⟨503, none, "unavailable", none⟩)).1 := by
  refine ⟨?_, ?_, ?_⟩ <;> decide

/-- C5 amended: can_proceed is consulted exactly once per fetch_latest_logs
call, before the retry loop; whenever that single consultation returns false
the fetch fails immediately with the circuit-open MezmoAPIError (status 503)
and makes no network call. -/
theorem can_proceed_consulted_once_per_fetch
    (rd : ℚ) (maxR : Nat) (cb : CircuitBreaker) (now : ℚ) (count : Int)
    (prefer : Option String) (jRA j429 jGen : Nat → ℚ) (outcomes : Nat → AttemptOutcome)
    (evs : List Event) (cbf : CircuitBreaker) (res : Except FetchErr FetchResult)
    (hrun : fetch_latest_logs rd maxR cb now count prefer jRA j429 jGen outcomes =
      (evs, cbf, res)) :
    List.countP isCanProceedCheck evs = 1 ∧
    ((can_proceed cb now).1 = false →
      res = Except.error (FetchErr.apiError circuitOpenErr) ∧
      circuitOpenErr.status_code = some 503 ∧
      List.countP isNetworkCall evs = 0) := by
  unfold fetch_latest_logs at hrun
  by_cases hg : (can_proceed cb now).1 = false
  · rw [if_pos hg] at hrun
    simp only [Prod.mk.injEq] at hrun
    obtain ⟨hA, hB, hC⟩ := hrun
    refine ⟨by rw [← hA]; rfl, fun _ => ⟨hC.symm, rfl, by rw [← hA]; rfl⟩⟩
  · rw [if_neg hg] at hrun
    refine ⟨?_, fun hgf => absurd hgf hg⟩
    by_cases h1 : count < 1 ∨ 10000 < count
    · rw [if_pos h1] at hrun
      simp only [Prod.mk.injEq] at hrun
      rw [← hrun.1]
      rfl
    · rw [if_neg h1] at hrun
      by_cases h2 : prefer ≠ some "head" ∧ prefer ≠ some "tail"
      · rw [if_pos h2] at hrun
        simp only [Prod.mk.injEq] at hrun
        rw [← hrun.1]
        rfl
      · rw [if_neg h2] at hrun
        simp only [Prod.mk.injEq] at hrun
        rw [← hrun.1]
        simp only [List.countP_cons]
        rw [fetchLoop_no_cpc]
        simp [isCanProceedCheck]

theorem can_proceed_consulted_once_per_fetch_witness :
    List.countP isCanProceedCheck
        (fetch_latest_logs 1 3 ⟨5, 60, CircuitBreakerState.opened, 5, some 50⟩ 60 10
          (some "tail") (fun _ => 1) (fun _ => 1) (fun _ => 1)
          (fun _ => .resp ⟨503, none, "unavailable", none⟩)).1 = 1 ∧
    (fetch_latest_logs 1 3 ⟨5, 60, CircuitBreakerState.opened, 5, some 50⟩ 60 10
        (some "tail") (fun _ => 1) (fun _ => 1) (fun _ => 1)
        (fun _ => .resp ⟨503, none, "unavailable", none⟩)).2.2 =
      Except.error (FetchErr.apiError circuitOpenErr) ∧
    circuitOpenErr.status_code = some 503 ∧
    List.countP isNetworkCall
        (fetch_latest_logs 1 3 ⟨5, 60, CircuitBreakerState.opened, 5, some 50⟩ 60 10
          (some "tail") (fun _ => 1) (fun _ => 1) (fun _ => 1)
          (fun _ => .resp ⟨503, none, "unavailable", none⟩)).1 = 0 := by
  have hfalse : (can_proceed ⟨5, 60, CircuitBreakerState.opened, 5, some 50⟩ (60 : ℚ)).1 =
      false := by
    unfold can_proceed
    dsimp only
    rw [if_neg]
    rintro ⟨-, h⟩
    norm_num at h
  have h := can_proceed_consulted_once_per_fetch 1 3
    ⟨5, 60, CircuitBreakerState.opened, 5, some 50⟩ 60 10 (some "tail")
    (fun _ => 1) (fun _ => 1) (fun _ => 1)
    (fun _ => .resp ⟨503, none, "unavailable", none⟩) _ _ _ rfl
  obtain ⟨h1, h2⟩ := h
  obtain ⟨h3, h4, h5⟩ := h2 hfalse
  exact ⟨h1, h3, h4, h5⟩

/-- C6 counterexample: calling fetch_latest_logs with the invalid count 0 and a
closed breaker rejects the request with a ValueError, but the trace contains
one can_proceed consultation, contradicting the claim that validation runs
before the circuit-breaker gate and that can_proceed is not called. -/
theorem gate_before_validation_counterexample :
    List.countP isCanProceedCheck
        (fetch_latest_logs 1 3 ⟨5, 60, CircuitBreakerState.closed, 0, none⟩ 0 0 (some "tail")
          (fun _ => 1) (fun _ => 1) (fun _ => 1)
          (fun _ => .resp ⟨503, none, "unavailable", none⟩)).1 = 1 ∧
    isValueErrorRes
        (fetch_latest_logs 1 3 ⟨5, 60, CircuitBreakerState.closed, 0, none⟩ 0 0 (some "tail")
          (fun _ => 1) (fun _ => 1) (fun _ => 1)
          (fun _ => .resp ⟨503, none, "unavailable", none⟩)).2.2 = true ∧
    List.countP isCanProceedCheck
        (fetch_latest_logs 1 3 ⟨5, 60, CircuitBreakerState.closed, 0, none⟩ 0 0 (some "tail")
          (fun _ => 1) (fun _ => 1) (fun _ => 1)
          (fun _ => .resp ⟨503, none, "unavailable", none⟩)).1 ≠ 0 := by
  refine ⟨?_, ?_, ?_⟩ <;> decide

/-- C6 amended: in fetch_latest_logs the circuit gate runs before parameter
validation: a request with count outside [1, 10000] whose gate consultation
returns true fails with a ValueError (InvalidParameters) only after exactly one
can_proceed call, still with no network activity. -/
theorem invalid_params_rejected_after_gate
    (rd : ℚ) (maxR : Nat) (cb : CircuitBreaker) (now : ℚ) (count : Int)
    (prefer : Option String) (jRA j429 jGen : Nat → ℚ) (outcomes : Nat → AttemptOutcome)
    (hgate : (can_proceed cb now).1 = true)
    (hbad : count < 1 ∨ 10000 < count)
    (evs : List Event) (cbf : CircuitBreaker) (res : Except FetchErr FetchResult)
    (hrun : fetch_latest_logs rd maxR cb now count prefer jRA j429 jGen outcomes =
      (evs, cbf, res)) :
    isValueErrorRes res = true ∧
    List.countP isNetworkCall evs = 0 ∧
    List.countP isCanProceedCheck evs = 1 := by
  unfold fetch_latest_logs at hrun
  rw [if_neg (by rw [hgate]; simp), if_pos hbad] at hrun
  simp only [Prod.mk.injEq] at hrun
  obtain ⟨hA, hB, hC⟩ := hrun
  exact ⟨by rw [← hC]; rfl, by rw [← hA]; rfl, by rw [← hA]; rfl⟩

theorem invalid_params_rejected_after_gate_witness :
    isValueErrorRes
        (fetch_latest_logs 1 3 ⟨5, 60, CircuitBreakerState.closed, 0, none⟩ 0 0 (some "tail")
          (fun _ => 1) (fun _ => 1) (fun _ => 1)
          (fun _ => .resp ⟨503, none, "unavailable", none⟩)).2.2 = true ∧
    List.countP isNetworkCall
        (fetch_latest_logs 1 3 ⟨5, 60, CircuitBreakerState.closed, 0, none⟩ 0 0 (some "tail")
          (fun _ => 1) (fun _ => 1) (fun _ => 1)
          (fun _ => .resp ⟨503, none, "unavailable", none⟩)).1 = 0 ∧
    List.countP isCanProceedCheck
        (fetch_latest_logs 1 3 ⟨5, 60, CircuitBreakerState.closed, 0, none⟩ 0 0 (some "tail")
          (fun _ => 1) (fun _ => 1) (fun _ => 1)
          (fun _ => .resp ⟨503, none, "unavailable", none⟩)).1 = 1 :=
  invalid_params_rejected_after_gate 1 3 ⟨5, 60, CircuitBreakerState.closed, 0, none⟩ 0 0
    (some "tail") (fun _ => 1) (fun _ => 1) (fun _ => 1)
    (fun _ => .resp ⟨503, none, "unavailable", none⟩) rfl (Or.inl (by norm_num))
    _ _ _ rfl

theorem backoffTail_ne_done (rd jGen : ℚ) (attempt : Nat) (notLast : Bool)
    (exc : MezmoAPIError) (evs : List Event) (cb : CircuitBreaker)
    (res : Except FetchErr FetchResult) :
    backoffTail rd jGen attempt notLast exc ≠ .done evs cb res := by
  unfold backoffTail
  split <;> exact fun hc => StepRes.noConfusion hc

theorem fetchStep_ok_has_more (count : Int) (rd jRA j429 jGen : ℚ) (out : AttemptOutcome)
    (attempt : Nat) (notLast : Bool) (cb : CircuitBreaker) (now : ℚ)
    (evs : List Event) (cb2 : CircuitBreaker) (fr : FetchResult)
    (h : fetchStep count rd jRA j429 jGen out attempt notLast cb now =
      .done evs cb2 (Except.ok fr)) :
    fr.has_more = decide ((fr.logs.length : Int) = count) := by
  cases out with
  | resp r =>
    simp only [fetchStep] at h
    by_cases h200 : r.status_code = 200
    · rw [if_pos h200] at h
      cases hj : r.json with
      | some data =>
        rw [hj] at h
        injection h with he hcb hres
        injection hres with hfr
        rw [← hfr]
      | none =>
        rw [hj] at h
        injection h with he hcb hres
        exact Except.noConfusion hres
    · rw [if_neg h200] at h
      by_cases h429 : r.status_code = 429
      · rw [if_pos h429] at h
        cases notLast with
        | false =>
          rw [if_neg (fun hc : (false : Bool) = true => by cases hc)] at h
          exact absurd h (backoffTail_ne_done rd jGen attempt false (rateLimitErr r) evs cb2 _)
        | true =>
          rw [if_pos rfl] at h
          exact StepRes.noConfusion h
      · rw [if_neg h429] at h
        by_cases h4 : 400 ≤ r.status_code ∧ r.status_code < 500
        · rw [if_pos h4] at h
          injection h with he hcb hres
          exact Except.noConfusion hres
        · rw [if_neg h4] at h
          exact absurd h (backoffTail_ne_done rd jGen attempt notLast (httpStatusErr r) evs cb2 _)
  | timeout => exact absurd h (backoffTail_ne_done rd jGen attempt notLast timeoutErr evs cb2 _)
  | connectError =>
    exact absurd h (backoffTail_ne_done rd jGen attempt notLast connectFailedErr evs cb2 _)
  | otherError =>
    exact absurd h (backoffTail_ne_done rd jGen attempt notLast unexpectedErr evs cb2 _)

theorem fetchLoop_ok_has_more (count : Int) (rd : ℚ) (jRA j429 jGen : Nat → ℚ)
    (outcomes : Nat → AttemptOutcome) (now : ℚ) :
    ∀ (rem a : Nat) (le : Option MezmoAPIError) (cb : CircuitBreaker)
      (evs : List Event) (cb2 : CircuitBreaker) (fr : FetchResult),
    fetchLoop count rd jRA j429 jGen outcomes now rem a le cb = (evs, cb2, Except.ok fr) →
    fr.has_more = decide ((fr.logs.length : Int) = count) := by
  intro rem
  induction rem with
  | zero =>
    intro a le cb evs cb2 fr h
    have h0 : fetchLoop count rd jRA j429 jGen outcomes now 0 a le cb =
        ([Event.recordFailure], record_failure cb now,
          Except.error (FetchErr.apiError (le.getD exhaustedErr))) := rfl
    rw [h0] at h
    simp only [Prod.mk.injEq] at h
    exact Except.noConfusion h.2.2
  | succ k ih =>
    intro a le cb evs cb2 fr h
    rw [fetchLoop_succ] at h
    cases hs : fetchStep count rd (jRA a) (j429 a) (jGen a) (outcomes a) a (k != 0) cb now with
    | done evs0 cbx res0 =>
      rw [hs] at h
      dsimp only at h
      simp only [Prod.mk.injEq] at h
      obtain ⟨hA, hB, hC⟩ := h
      rw [hC] at hs
      exact fetchStep_ok_has_more count rd (jRA a) (j429 a) (jGen a) (outcomes a) a
        (k != 0) cb now evs0 cbx fr hs
    | next evs0 exc =>
      rw [hs] at h
      dsimp only at h
      simp only [Prod.mk.injEq] at h
      obtain ⟨hA, hrest⟩ := h
      have hfull : fetchLoop count rd jRA j429 jGen outcomes now k (a + 1) (some exc) cb =
          ((fetchLoop count rd jRA j429 jGen outcomes now k (a + 1) (some exc) cb).1,
            cb2, Except.ok fr) := by
        rw [← hrest]
      exact ih (a + 1) (some exc) cb _ cb2 fr hfull

/-- C9: whenever fetch_latest_logs succeeds, the returned has_more flag is
true exactly when the number of returned log records equals the requested
count. -/
theorem has_more_iff_full_count
    (rd : ℚ) (maxR : Nat) (cb : CircuitBreaker) (now : ℚ) (count : Int)
    (prefer : Option String) (jRA j429 jGen : Nat → ℚ) (outcomes : Nat → AttemptOutcome)
    (evs : List Event) (cbf : CircuitBreaker) (fr : FetchResult)
    (hrun : fetch_latest_logs rd maxR cb now count prefer jRA j429 jGen outcomes =
      (evs, cbf, Except.ok fr)) :
    fr.has_more = decide ((fr.logs.length : Int) = count) := by
  unfold fetch_latest_logs at hrun
  by_cases hg : (can_proceed cb now).1 = false
  · rw [if_pos hg] at hrun
    simp only [Prod.mk.injEq] at hrun
    exact Except.noConfusion hrun.2.2
  · rw [if_neg hg] at hrun
    by_cases h1 : count < 1 ∨ 10000 < count
    · rw [if_pos h1] at hrun
      simp only [Prod.mk.injEq] at hrun
      exact Except.noConfusion hrun.2.2
    · rw [if_neg h1] at hrun
      by_cases h2 : prefer ≠ some "head" ∧ prefer ≠ some "tail"
      · rw [if_pos h2] at hrun
        simp only [Prod.mk.injEq] at hrun
        exact Except.noConfusion hrun.2.2
      · rw [if_neg h2] at hrun
        simp only [Prod.mk.injEq] at hrun
        obtain ⟨hA, hrest⟩ := hrun
        have hfull : fetchLoop count rd jRA j429 jGen outcomes now maxR 0 none
            (can_proceed cb now).2 =
            ((fetchLoop count rd jRA j429 jGen outcomes now maxR 0 none
              (can_proceed cb now).2).1, cbf, Except.ok fr) := by
          rw [← hrest]
        exact fetchLoop_ok_has_more count rd jRA j429 jGen outcomes now maxR 0 none _ _ _ _ hfull

theorem has_more_iff_full_count_witness :
    (⟨[1, 2, 3], some "tok", true⟩ : FetchResult).has_more =
      decide (((⟨[1, 2, 3], some "tok", true⟩ : FetchResult).logs.length : Int) = 3) :=
  has_more_iff_full_count 1 3 ⟨5, 60, CircuitBreakerState.closed, 0, none⟩ 0 3 (some "tail")
    (fun _ => 1) (fun _ => 1) (fun _ => 1)
    (fun _ => .resp ⟨200, none, "", some ⟨[1, 2, 3], some "tok"⟩⟩)
    [Event.canProceedCheck true, Event.networkCall, Event.recordSuccess]
    ⟨5, 60, CircuitBreakerState.closed, 0, none⟩
    ⟨[1, 2, 3], some "tok", true⟩ rfl
